import Mathlib

/-!
Shallow embedding of the Maricheck crew-management application
(src/app.py and src/models.py) and proofs of the specification claims.

Python strings are modelled as Lean `String`s; the Python string methods
used by the code (`strip`, `upper`, `lower`, `replace`, `in`, `rsplit`)
are embedded as structural functions over the underlying character list,
following CPython's behaviour on the ASCII data this application handles.
The database tables are modelled as Lean lists in insertion order; each
request handler becomes a pure function from the table states and the
request data to the new table states plus an outcome.
-/

namespace Maricheck

/-! ## Python string primitives -/

/-- Drop leading whitespace characters from a character list. -/
def dropLeadingWhitespace : List Char → List Char
  | [] => []
  | c :: rest => if c.isWhitespace then dropLeadingWhitespace rest else c :: rest

/-- Python `str.strip()`: remove leading and trailing whitespace. -/
def pyStrip (s : String) : String :=
  ⟨(dropLeadingWhitespace (dropLeadingWhitespace s.data).reverse).reverse⟩

/-- Python `str.upper()` (ASCII model). -/
def pyUpper (s : String) : String := ⟨s.data.map Char.toUpper⟩

/-- Python `str.lower()` (ASCII model). -/
def pyLower (s : String) : String := ⟨s.data.map Char.toLower⟩

/-- Python `name.replace(' ', '_')` as used for upload-name hints. -/
def replaceSpaceWithUnderscore (s : String) : String :=
  ⟨s.data.map (fun c => if c = ' ' then '_' else c)⟩

/-- Python `'.' in filename`. -/
def pyContainsDot (s : String) : Bool := s.data.any (fun c => c == '.')

/-- The characters after the last `'.'` of the list, or `none` when no dot
occurs; this is Python's `filename.rsplit('.', 1)[1]` guarded by `'.' in
filename`. -/
def afterLastDot : List Char → Option (List Char)
  | [] => none
  | c :: rest =>
    match afterLastDot rest with
    | some ext => some ext
    | none => if c = '.' then some rest else none

/-! ## File upload helpers (app.py lines 27-60) -/

/-- ALLOWED_EXTENSIONS from app.py line 30. -/
def ALLOWED_EXTENSIONS : List String := ["pdf", "doc", "docx", "jpg", "jpeg", "png"]

/-- allowed_file from app.py lines 42-44: the name contains a dot and the
piece after the last dot, lower-cased, is an allowed extension. -/
def allowed_file (filename : String) : Bool :=
  pyContainsDot filename &&
    (match afterLastDot filename.data with
     | some ext => ALLOWED_EXTENSIONS.contains (pyLower ⟨ext⟩)
     | none => false)

/-- An uploaded file, identified by the client-claimed original filename. -/
structure UploadedFile where
  filename : String
deriving DecidableEq

/-- Ersatz for werkzeug.utils.secure_filename (third-party library code, not
part of this repository): spaces become underscores and only filename-safe
ASCII characters are kept. No claim depends on the exact sanitisation. -/
def secure_filename (s : String) : String :=
  ⟨(s.data.map (fun c => if c = ' ' then '_' else c)).filter
    (fun c => c.isAlphanum || c == '.' || c == '-' || c == '_')⟩

/-- os.path.splitext for ordinary names: split at the last dot, the extension
keeping its dot. A name without a dot has an empty extension. -/
def splitext (s : String) : String × String :=
  match afterLastDot s.data with
  | none => (s, "")
  | some ext => (⟨s.data.take (s.data.length - ext.length - 1)⟩, ⟨'.' :: ext⟩)

set_option linter.unusedVariables false in
/-- save_uploaded_file from app.py lines 46-60. Returns the stored filename,
or `none` when no file was supplied or the extension check fails; the
filesystem write happens exactly when `some` is returned, so a `none` result
also means no file is created. The timestamp string stands for
`datetime.now().strftime('%Y%m%d_%H%M%S')`; the folder only scopes the
on-disk path, never the returned name. -/
def save_uploaded_file (file : Option UploadedFile) (folder : String)
    (pfx : String) (timestamp : String) : Option String :=
  match file with
  | none => none
  | some f =>
    if allowed_file f.filename then
      let filename := secure_filename f.filename
      let ne := splitext filename
      some (pfx ++ "_" ++ ne.1 ++ "_" ++ timestamp ++ ne.2)
    else none

/-! ## Form-value parsing (datetime.strptime and int) -/

/-- Split a character list at every occurrence of the separator. -/
def splitOnChar (sep : Char) : List Char → List (List Char)
  | [] => [[]]
  | c :: rest =>
    match splitOnChar sep rest with
    | [] => [[c]]
    | h :: t => if c = sep then [] :: h :: t else (c :: h) :: t

/-- Fold a digit list into the number it denotes. -/
def digitsToNat (cs : List Char) : Nat :=
  cs.foldl (fun acc c => acc * 10 + (c.toNat - '0'.toNat)) 0

def isLeapYear (y : Nat) : Bool := (y % 4 == 0 && y % 100 != 0) || y % 400 == 0

def daysInMonth (y m : Nat) : Nat :=
  if m = 2 then (if isLeapYear y then 29 else 28)
  else if m = 4 || m = 6 || m = 9 || m = 11 then 30
  else 31

/-- datetime.strptime(s, '%Y-%m-%d').date(): a four-digit year, a one- or
two-digit month in 1..12 and day in 1..31, then calendar validation by the
datetime constructor (which also requires year ≥ 1). -/
def strptime_Ymd (s : String) : Option (Nat × Nat × Nat) :=
  match splitOnChar '-' s.data with
  | [ys, ms, ds] =>
    if ys.length = 4 && ys.all Char.isDigit
        && (ms.length = 1 || ms.length = 2) && ms.all Char.isDigit
        && (ds.length = 1 || ds.length = 2) && ds.all Char.isDigit then
      let y := digitsToNat ys
      let m := digitsToNat ms
      let d := digitsToNat ds
      if 1 ≤ y && 1 ≤ m && m ≤ 12 && 1 ≤ d && d ≤ daysInMonth y m then
        some (y, m, d)
      else none
    else none
  | _ => none

/-- After the first digit of a Python integer literal: digits optionally
separated by single underscores. -/
def intDigitsRest : List Char → Bool
  | [] => true
  | '_' :: c :: rest => c.isDigit && intDigitsRest rest
  | c :: rest => c.isDigit && intDigitsRest rest

/-- Python `int(s)` on a string: optional surrounding whitespace, an optional
sign, then decimal digits optionally separated by single underscores;
`none` models the ValueError. -/
def pyInt (s : String) : Option Int :=
  let t := (pyStrip s).data
  let core : List Char × Bool :=
    match t with
    | '+' :: rest => (rest, false)
    | '-' :: rest => (rest, true)
    | rest => (rest, false)
  match core.1 with
  | [] => none
  | c :: rest =>
    if c.isDigit && intDigitsRest rest then
      let n : Nat := digitsToNat ((c :: rest).filter (fun ch => ch != '_'))
      some (if core.2 then -(n : Int) else (n : Int))
    else none

/-! ## Data model (models.py) -/

/-- A calendar date as parsed by strptime: year, month, day. -/
abbrev PyDate := Nat × Nat × Nat

/-- CrewMember from models.py lines 18-50. -/
structure CrewMember where
  id : Nat
  name : String
  rank : String
  passport : String
  nationality : String
  date_of_birth : Option PyDate
  years_experience : Option Int
  last_vessel_type : String
  availability_date : Option PyDate
  passport_file : Option String
  cdc_file : Option String
  resume_file : Option String
  photo_file : Option String
  status : Int
  created_at : Nat
  updated_at : Nat
deriving DecidableEq

/-- StaffMember from models.py lines 53-87. -/
structure StaffMember where
  id : Nat
  full_name : String
  email_or_whatsapp : String
  position_applying : String
  department : String
  years_experience : Option Int
  current_employer : String
  location : String
  availability_date : Option PyDate
  resume_file : Option String
  photo_file : Option String
  status : Int
  created_at : Nat
  updated_at : Nat
deriving DecidableEq

/-- Admin from models.py lines 5-15. -/
structure Admin where
  id : Nat
  username : String
  password_hash : String
  created_at : Nat
deriving DecidableEq

/-- status_stages from app.py line 36. -/
def status_stages : List String :=
  ["Registered", "Screening", "Documents Verified", "Approved"]

/-- CrewMember.get_status_name from models.py lines 47-50. -/
def CrewMember.get_status_name (c : CrewMember) : String :=
  let status_names := ["Registered", "Screening", "Documents Verified", "Approved"]
  if 0 ≤ c.status ∧ c.status < (status_names.length : Int) then
    status_names.getD c.status.toNat "Unknown"
  else "Unknown"

/-- StaffMember.get_status_name from models.py lines 78-87. -/
def StaffMember.get_status_name (s : StaffMember) : String :=
  if s.status = 1 then "Screening"
  else if s.status = 3 then "Approved"
  else if s.status = -1 then "Rejected"
  else "Unknown"

/-! ## Request handlers (app.py) -/

/-- Flash-message categories used by the handlers. -/
inductive FlashCat where
  | success
  | info
  | warning
  | danger
deriving DecidableEq

/-- The raw form fields read by the register handler (app.py lines 145-152),
before any stripping or parsing. -/
structure RegisterForm where
  name : String
  rank : String
  passport : String
  nationality : String
  date_of_birth : String
  years_experience : String
  last_vessel_type : String
  availability_date : String
deriving DecidableEq

/-- The four file inputs read by the register handler (app.py lines 183-186). -/
structure RegisterFiles where
  passport_file : Option UploadedFile
  cdc_file : Option UploadedFile
  resume_file : Option UploadedFile
  photo_file : Option UploadedFile
deriving DecidableEq

/-- Outcome of a POST to /register. -/
inductive RegisterOutcome where
  | validationError
  | parseError
  | duplicateKey
  | created (c : CrewMember)
deriving DecidableEq

/-- The POST branch of register from app.py lines 143-208. `timestamp` stands
for the upload-time formatted clock, `now` for datetime.utcnow, and `newId`
for the auto-increment primary key. Returns the outcome together with the
crew table after the request. -/
def register (reg : List CrewMember) (form : RegisterForm) (files : RegisterFiles)
    (timestamp : String) (now : Nat) (newId : Nat) :
    RegisterOutcome × List CrewMember :=
  let name := pyStrip form.name
  let rank := pyStrip form.rank
  let passport := pyStrip form.passport
  let nationality := pyStrip form.nationality
  let vessel_type := pyStrip form.last_vessel_type
  if name = "" ∨ rank = "" ∨ passport = "" then (.validationError, reg)
  else
    match reg.find? (fun c => c.passport == pyUpper passport) with
    | some _ => (.duplicateKey, reg)
    | none =>
      let dobP : Option (Option PyDate) :=
        if form.date_of_birth = "" then some none
        else (strptime_Ymd form.date_of_birth).map some
      let availP : Option (Option PyDate) :=
        if form.availability_date = "" then some none
        else (strptime_Ymd form.availability_date).map some
      let yexpP : Option (Option Int) :=
        if form.years_experience = "" then some none
        else (pyInt form.years_experience).map some
      match dobP, availP, yexpP with
      | some date_of_birth, some availability_date, some years_experience =>
        let base := replaceSpaceWithUnderscore name
        let new_crew : CrewMember := {
          id := newId
          name := name
          rank := rank
          passport := pyUpper passport
          nationality := nationality
          date_of_birth := date_of_birth
          years_experience := years_experience
          last_vessel_type := vessel_type
          availability_date := availability_date
          passport_file := save_uploaded_file files.passport_file "crew" (base ++ "_passport") timestamp
          cdc_file := save_uploaded_file files.cdc_file "crew" (base ++ "_cdc") timestamp
          resume_file := save_uploaded_file files.resume_file "crew" (base ++ "_resume") timestamp
          photo_file := save_uploaded_file files.photo_file "crew" (base ++ "_photo") timestamp
          status := 0
          created_at := now
          updated_at := now }
        (.created new_crew, reg ++ [new_crew])
      | _, _, _ => (.parseError, reg)

/-- The POST branch of track from app.py lines 310-329: strip and upper-case
the submitted passport, then return the first crew record carrying it. -/
def track (reg : List CrewMember) (passportInput : String) : Option CrewMember :=
  let passport := pyUpper (pyStrip passportInput)
  if passport = "" then none
  else reg.find? (fun c => c.passport == passport)

/-- The per-record effect of update_status (app.py lines 294-296): increment
the status when it is below len(status_stages) - 1 = 3, refreshing
updated_at (the SQLAlchemy onupdate hook); otherwise leave the record as is. -/
def advanceCrew (c : CrewMember) (now : Nat) : CrewMember :=
  if c.status < (status_stages.length : Int) - 1 then
    { c with status := c.status + 1, updated_at := now }
  else c

/-- update_status from app.py lines 282-305. `none` models the 404 of
get_or_404; otherwise the new crew table and the flash category: success on
an increment, info when the record is already at the final stage. -/
def update_status (reg : List CrewMember) (crew_id : Nat) (now : Nat) :
    Option (List CrewMember × FlashCat) :=
  match reg.find? (fun c => c.id == crew_id) with
  | none => none
  | some c =>
    if c.status < (status_stages.length : Int) - 1 then
      some (reg.map (fun r => if r.id == crew_id then advanceCrew r now else r), .success)
    else some (reg, .info)

/-- approve_crew from app.py lines 397-409: force status to 3. -/
def approve_crew (reg : List CrewMember) (crew_id : Nat) (now : Nat) :
    Option (List CrewMember × FlashCat) :=
  match reg.find? (fun c => c.id == crew_id) with
  | none => none
  | some _ =>
    some (reg.map (fun r =>
      if r.id == crew_id then { r with status := 3, updated_at := now } else r), .success)

/-- reject_crew from app.py lines 411-423: force status to -1. -/
def reject_crew (reg : List CrewMember) (crew_id : Nat) (now : Nat) :
    Option (List CrewMember × FlashCat) :=
  match reg.find? (fun c => c.id == crew_id) with
  | none => none
  | some _ =>
    some (reg.map (fun r =>
      if r.id == crew_id then { r with status := -1, updated_at := now } else r), .warning)

/-- approve_staff from app.py lines 425-437: force status to 3. -/
def approve_staff (reg : List StaffMember) (staff_id : Nat) (now : Nat) :
    Option (List StaffMember × FlashCat) :=
  match reg.find? (fun s => s.id == staff_id) with
  | none => none
  | some _ =>
    some (reg.map (fun r =>
      if r.id == staff_id then { r with status := 3, updated_at := now } else r), .success)

/-- reject_staff from app.py lines 439-451: force status to -1. -/
def reject_staff (reg : List StaffMember) (staff_id : Nat) (now : Nat) :
    Option (List StaffMember × FlashCat) :=
  match reg.find? (fun s => s.id == staff_id) with
  | none => none
  | some _ =>
    some (reg.map (fun r =>
      if r.id == staff_id then { r with status := -1, updated_at := now } else r), .warning)

/-! ## Admin session (app.py lines 80-89 and 336-373) -/

/-- The session keys touched by the admin-auth handlers. -/
structure Session where
  admin_logged_in : Bool
  admin_username : Option String
deriving DecidableEq

/-- Outcome of a POST to /admin/login. -/
inductive LoginOutcome where
  | missingFields
  | invalidCredentials
  | success
deriving DecidableEq

/-- The POST branch of admin_login from app.py lines 339-358. The password
hash check (werkzeug's check_password_hash, third-party library code) is
passed in as `checkHash : stored hash → submitted password → Bool`. On
success the session is marked authenticated and records the username; every
failure leaves the session untouched. -/
def admin_login (admins : List Admin) (checkHash : String → String → Bool)
    (sess : Session) (usernameInput : String) (password : String) :
    LoginOutcome × Session :=
  let username := pyStrip usernameInput
  if username = "" ∨ password = "" then (.missingFields, sess)
  else
    match admins.find? (fun a => a.username == username) with
    | some admin =>
      if checkHash admin.password_hash password then
        (.success, { admin_logged_in := true, admin_username := some username })
      else (.invalidCredentials, sess)
    | none => (.invalidCredentials, sess)

/-- The frame of a crew record: every field other than status and updated_at
agrees. -/
def crewFrame (c c' : CrewMember) : Prop :=
  c'.id = c.id ∧ c'.name = c.name ∧ c'.rank = c.rank ∧ c'.passport = c.passport ∧
  c'.nationality = c.nationality ∧ c'.date_of_birth = c.date_of_birth ∧
  c'.years_experience = c.years_experience ∧
  c'.last_vessel_type = c.last_vessel_type ∧
  c'.availability_date = c.availability_date ∧
  c'.passport_file = c.passport_file ∧ c'.cdc_file = c.cdc_file ∧
  c'.resume_file = c.resume_file ∧ c'.photo_file = c.photo_file ∧
  c'.created_at = c.created_at

/-- The frame of a staff record: every field other than status and updated_at
agrees. -/
def staffFrame (s s' : StaffMember) : Prop :=
  s'.id = s.id ∧ s'.full_name = s.full_name ∧
  s'.email_or_whatsapp = s.email_or_whatsapp ∧
  s'.position_applying = s.position_applying ∧ s'.department = s.department ∧
  s'.years_experience = s.years_experience ∧
  s'.current_employer = s.current_employer ∧ s'.location = s.location ∧
  s'.availability_date = s.availability_date ∧ s'.resume_file = s.resume_file ∧
  s'.photo_file = s.photo_file ∧ s'.created_at = s.created_at

/-- Repeated application of the update_status increment to one record, for
the claims about iterating `advance`. -/
def iterAdvance : Nat → CrewMember → Nat → CrewMember
  | 0, c, _ => c
  | n + 1, c, now => iterAdvance n (advanceCrew c now) now

/-! ## Sample records used by the witnesses and counterexamples -/

def sampleCrew : CrewMember :=
  { id := 1, name := "Jane Doe", rank := "Captain", passport := "AB123",
    nationality := "", date_of_birth := none, years_experience := none,
    last_vessel_type := "", availability_date := none, passport_file := none,
    cdc_file := none, resume_file := none, photo_file := none, status := 0,
    created_at := 0, updated_at := 0 }

def sampleRejected : CrewMember :=
  { sampleCrew with id := 2, passport := "CD456", status := -1 }

def sampleApproved : CrewMember :=
  { sampleCrew with id := 3, passport := "EF789", status := 3 }

def sampleForm : RegisterForm :=
  { name := "Jane Doe", rank := "Captain", passport := "ab123", nationality := "",
    date_of_birth := "", years_experience := "", last_vessel_type := "",
    availability_date := "" }

def sampleNoFiles : RegisterFiles :=
  { passport_file := none, cdc_file := none, resume_file := none, photo_file := none }

def sampleStaff : StaffMember :=
  { id := 1, full_name := "John Roe", email_or_whatsapp := "j@example.com",
    position_applying := "Clerk", department := "Ops", years_experience := none,
    current_employer := "", location := "", availability_date := none,
    resume_file := none, photo_file := none, status := 1,
    created_at := 0, updated_at := 0 }

def sampleAdmin : Admin :=
  { id := 1, username := "admin", password_hash := "hash:admin123", created_at := 0 }

def sampleSession : Session := { admin_logged_in := false, admin_username := none }

def sampleHash : String → String → Bool := fun h p => h == "hash:" ++ p

/-! ## Helper lemmas -/

theorem status_stages_sub_one : (status_stages.length : Int) - 1 = 3 := by decide

theorem advanceCrew_status (c : CrewMember) (now : Nat) :
    (advanceCrew c now).status = if c.status < 3 then c.status + 1 else c.status := by
  unfold advanceCrew
  rw [status_stages_sub_one]
  by_cases h : c.status < 3
  · rw [if_pos h, if_pos h]
  · rw [if_neg h, if_neg h]

theorem iterAdvance_status_min (n : Nat) :
    ∀ (c : CrewMember) (now : Nat), 0 ≤ c.status → c.status ≤ 3 →
      (iterAdvance n c now).status = min (c.status + n) 3 := by
  induction n with
  | zero =>
    intro c now h0 h3
    simp only [iterAdvance, Nat.cast_zero, add_zero]
    omega
  | succ n ih =>
    intro c now h0 h3
    simp only [iterAdvance]
    by_cases hlt : c.status < 3
    · have hs : (advanceCrew c now).status = c.status + 1 := by
        rw [advanceCrew_status, if_pos hlt]
      rw [ih (advanceCrew c now) now (by omega) (by omega)]
      rw [hs]
      push_cast
      omega
    · have hs : (advanceCrew c now).status = c.status := by
        rw [advanceCrew_status, if_neg hlt]
      rw [ih (advanceCrew c now) now (by omega) (by omega)]
      rw [hs]
      push_cast
      omega

/-! ## Claim theorems -/

/-- C2 counterexample: a rejected crew record (status -1) is not left
unchanged by update_status; the handler succeeds and moves it to status 0. -/
theorem update_status_rejected_cex :
    sampleRejected.status = -1 ∧
    update_status [sampleRejected] 2 5 =
      some ([{ sampleRejected with status := 0, updated_at := 5 }], FlashCat.success) := by
  constructor
  · rfl
  · decide

/-- C2 (amended): calling advance (update_status) on a crew record whose
status is Rejected (-1) does not leave it at -1; the guard status < 3 accepts
it and the record is moved to status 0, back into the forward pipeline. -/
theorem update_status_resurrects_rejected (c : CrewMember) (now : Nat)
    (h : c.status = -1) :
    (advanceCrew c now).status = 0 ∧
    update_status [c] c.id now = some ([advanceCrew c now], FlashCat.success) := by
  have hg : c.status < (status_stages.length : Int) - 1 := by
    rw [status_stages_sub_one, h]; decide
  constructor
  · rw [advanceCrew_status, if_pos (by rw [h]; decide), h]; decide
  · unfold update_status
    rw [List.find?_singleton]
    simp [hg]

theorem update_status_resurrects_rejected_witness :
    (advanceCrew sampleRejected 5).status = 0 ∧
    update_status [sampleRejected] sampleRejected.id 5 =
      some ([advanceCrew sampleRejected 5], FlashCat.success) :=
  update_status_resurrects_rejected sampleRejected 5 (by decide)

/-- C3: the only guard of update_status is status < len(status_stages) - 1 = 3,
which admits a Rejected record (status -1) and increments it, so advance sets
such a record to status 0 (Registered). -/
theorem advance_guard_admits_rejected (c : CrewMember) (now : Nat)
    (h : c.status = -1) :
    c.status < (status_stages.length : Int) - 1 ∧
    advanceCrew c now = { c with status := 0, updated_at := now } := by
  have hg : c.status < (status_stages.length : Int) - 1 := by
    rw [status_stages_sub_one, h]; decide
  refine ⟨hg, ?_⟩
  unfold advanceCrew
  rw [if_pos hg, h]
  rfl

theorem advance_guard_admits_rejected_witness :
    sampleRejected.status < (status_stages.length : Int) - 1 ∧
    advanceCrew sampleRejected 5 = { sampleRejected with status := 0, updated_at := 5 } :=
  advance_guard_admits_rejected sampleRejected 5 (by decide)

/-- C4: advance increments a status in {0,1,2} by one; on a record already at
status 3 it is an identity and the update_status handler reports the info
flash (already at final status) rather than an error, leaving the table as
is; iterating advance from status 0 yields exactly 0,1,2,3 and the status
never exceeds 3. -/
theorem advance_forward_pipeline :
    (∀ (c : CrewMember) (now : Nat), c.status = 0 ∨ c.status = 1 ∨ c.status = 2 →
        (advanceCrew c now).status = c.status + 1) ∧
    (∀ (c : CrewMember) (now : Nat), c.status = 3 → advanceCrew c now = c) ∧
    (∀ (reg : List CrewMember) (i now : Nat) (c : CrewMember),
        reg.find? (fun r => r.id == i) = some c → c.status = 3 →
        update_status reg i now = some (reg, FlashCat.info)) ∧
    (∀ (n : Nat) (c : CrewMember) (now : Nat), c.status = 0 →
        (iterAdvance n c now).status = min (n : Int) 3) := by
  refine ⟨?_, ?_, ?_, ?_⟩
  · intro c now h
    rw [advanceCrew_status, if_pos (by omega)]
  · intro c now h
    unfold advanceCrew
    rw [status_stages_sub_one, if_neg (by omega)]
  · intro reg i now c hfind h3
    unfold update_status
    rw [hfind]
    dsimp only
    rw [if_neg (by rw [status_stages_sub_one]; omega)]
  · intro n c now h
    rw [iterAdvance_status_min n c now (by omega) (by omega), h]
    omega

theorem advance_forward_pipeline_witness :
    (advanceCrew sampleCrew 7).status = sampleCrew.status + 1 ∧
    advanceCrew sampleApproved 7 = sampleApproved ∧
    update_status [sampleApproved] 3 7 = some ([sampleApproved], FlashCat.info) ∧
    (iterAdvance 5 sampleCrew 7).status = min ((5 : Nat) : Int) 3 :=
  ⟨advance_forward_pipeline.1 sampleCrew 7 (Or.inl (by decide)),
   advance_forward_pipeline.2.1 sampleApproved 7 (by decide),
   advance_forward_pipeline.2.2.1 [sampleApproved] 3 7 sampleApproved (by decide) (by decide),
   advance_forward_pipeline.2.2.2 5 sampleCrew 7 (by decide)⟩

/-- C5: approve_crew forces status 3 on the addressed record from any prior
state (including Rejected), reject_crew forces status -1 from any prior state
(including Approved), so rejecting and then approving a record leaves it at
status 3. -/
theorem approve_overrides_reject :
    (∀ (reg : List CrewMember) (i n1 n2 : Nat) (reg1 reg2 : List CrewMember)
        (f1 f2 : FlashCat),
        reject_crew reg i n1 = some (reg1, f1) →
        approve_crew reg1 i n2 = some (reg2, f2) →
        ∀ c ∈ reg2, c.id = i → c.status = 3) ∧
    (∀ (reg : List CrewMember) (i n : Nat) (reg' : List CrewMember) (f : FlashCat),
        approve_crew reg i n = some (reg', f) →
        ∀ c ∈ reg', c.id = i → c.status = 3) ∧
    (∀ (reg : List CrewMember) (i n : Nat) (reg' : List CrewMember) (f : FlashCat),
        reject_crew reg i n = some (reg', f) →
        ∀ c ∈ reg', c.id = i → c.status = -1) := by
  have happrove : ∀ (reg : List CrewMember) (i n : Nat) (reg' : List CrewMember)
      (f : FlashCat), approve_crew reg i n = some (reg', f) →
      ∀ c ∈ reg', c.id = i → c.status = 3 := by
    intro reg i n reg' f h c hc hcid
    unfold approve_crew at h
    rcases hfind : reg.find? (fun c => c.id == i) with _ | y
    · rw [hfind] at h; cases h
    · rw [hfind] at h
      simp only [Option.some.injEq, Prod.mk.injEq] at h
      rw [← h.1] at hc
      rcases List.mem_map.mp hc with ⟨x, hx, rfl⟩
      by_cases hxid : (x.id == i) = true
      · simp [hxid]
      · rw [if_neg (by simp [hxid])] at hcid ⊢
        exact absurd (by simp [hcid]) hxid
  have hreject : ∀ (reg : List CrewMember) (i n : Nat) (reg' : List CrewMember)
      (f : FlashCat), reject_crew reg i n = some (reg', f) →
      ∀ c ∈ reg', c.id = i → c.status = -1 := by
    intro reg i n reg' f h c hc hcid
    unfold reject_crew at h
    rcases hfind : reg.find? (fun c => c.id == i) with _ | y
    · rw [hfind] at h; cases h
    · rw [hfind] at h
      simp only [Option.some.injEq, Prod.mk.injEq] at h
      rw [← h.1] at hc
      rcases List.mem_map.mp hc with ⟨x, hx, rfl⟩
      by_cases hxid : (x.id == i) = true
      · simp [hxid]
      · rw [if_neg (by simp [hxid])] at hcid ⊢
        exact absurd (by simp [hcid]) hxid
  exact ⟨fun reg i n1 n2 reg1 reg2 f1 f2 _ h2 => happrove reg1 i n2 reg2 f2 h2,
    happrove, hreject⟩

theorem approve_overrides_reject_witness :
    ({ sampleCrew with status := 3, updated_at := 9 } : CrewMember).status = 3 ∧
    ({ sampleRejected with status := 3, updated_at := 9 } : CrewMember).status = 3 ∧
    ({ sampleApproved with status := -1, updated_at := 9 } : CrewMember).status = -1 :=
  ⟨approve_overrides_reject.1 [sampleCrew] 1 8 9
      [{ sampleCrew with status := -1, updated_at := 8 }]
      [{ sampleCrew with status := 3, updated_at := 9 }] FlashCat.warning FlashCat.success
      (by decide) (by decide) { sampleCrew with status := 3, updated_at := 9 }
      (by decide) (by decide),
   approve_overrides_reject.2.1 [sampleRejected] 2 9
      [{ sampleRejected with status := 3, updated_at := 9 }] FlashCat.success (by decide)
      { sampleRejected with status := 3, updated_at := 9 } (by decide) (by decide),
   approve_overrides_reject.2.2 [sampleApproved] 3 9
      [{ sampleApproved with status := -1, updated_at := 9 }] FlashCat.warning (by decide)
      { sampleApproved with status := -1, updated_at := 9 } (by decide) (by decide)⟩

/-- C7: CrewMember.get_status_name is a total function agreeing with the table
0 ↦ Registered, 1 ↦ Screening, 2 ↦ Documents Verified, 3 ↦ Approved and
returning Unknown on every other integer status (such as -1 or 99). -/
theorem get_status_name_total (c : CrewMember) :
    c.get_status_name =
      (if c.status = 0 then "Registered"
       else if c.status = 1 then "Screening"
       else if c.status = 2 then "Documents Verified"
       else if c.status = 3 then "Approved"
       else "Unknown") := by
  unfold CrewMember.get_status_name
  by_cases h0 : c.status = 0
  · simp [h0]
  by_cases h1 : c.status = 1
  · simp [h1]
  by_cases h2 : c.status = 2
  · simp [h2]
  by_cases h3 : c.status = 3
  · simp [h3]
  rw [if_neg h0, if_neg h1, if_neg h2, if_neg h3, if_neg (by simp; omega)]


theorem afterLastDot_any_dot {cs ext : List Char} (h : afterLastDot cs = some ext) :
    cs.any (fun c => c == '.') = true := by
  induction cs generalizing ext with
  | nil => simp [afterLastDot] at h
  | cons c rest ih =>
    simp only [afterLastDot] at h
    rcases hrec : afterLastDot rest with _ | e
    · rw [hrec] at h
      dsimp only at h
      by_cases hc : c = '.'
      · simp [List.any_cons, hc]
      · rw [if_neg hc] at h
        exact Option.noConfusion h
    · rw [hrec] at h
      simp [List.any_cons, ih hrec]

/-- C6: save_uploaded_file returns nothing (and writes no file, since the
write happens only on the accepting branch) exactly when the original
filename contains no dot or its piece after the last dot, lower-cased, is
not an allowed extension; matching is case-insensitive, so malware.exe is
rejected while scan.PDF is accepted and a stored filename is returned. -/
theorem save_uploaded_file_extension_filter :
    (∀ (f : UploadedFile) (folder pfx timestamp : String),
        save_uploaded_file (some f) folder pfx timestamp = none ↔
          (pyContainsDot f.filename = false ∨
            ∀ ext : List Char, afterLastDot f.filename.data = some ext →
              pyLower ⟨ext⟩ ∉ ALLOWED_EXTENSIONS)) ∧
    (∀ folder pfx timestamp : String,
        save_uploaded_file (some ⟨"malware.exe"⟩) folder pfx timestamp = none) ∧
    (∀ folder pfx timestamp : String,
        (save_uploaded_file (some ⟨"scan.PDF"⟩) folder pfx timestamp).isSome = true) := by
  refine ⟨?_, ?_, ?_⟩
  · intro f folder pfx timestamp
    unfold save_uploaded_file
    dsimp only
    constructor
    · intro h
      by_cases ha : allowed_file f.filename = true
      · rw [if_pos ha] at h
        exact Option.noConfusion h
      · unfold allowed_file at ha
        rcases hdot : pyContainsDot f.filename with _ | _
        · exact Or.inl rfl
        · refine Or.inr ?_
          intro ext hext hmem
          apply ha
          rw [hdot, hext]
          simp only [Bool.true_and]
          exact List.elem_iff.mpr hmem
    · intro h
      by_cases ha : allowed_file f.filename = true
      · exfalso
        unfold allowed_file at ha
        rcases h with hdot | hext
        · rw [hdot] at ha
          simp at ha
        · rcases hdl : afterLastDot f.filename.data with _ | e
          · rw [hdl] at ha
            simp at ha
          · rw [hdl] at ha
            simp only [Bool.and_eq_true] at ha
            exact hext e hdl (List.elem_iff.mp ha.2)
      · rw [if_neg ha]
  · intro folder pfx timestamp
    rfl
  · intro folder pfx timestamp
    rfl

theorem save_uploaded_file_extension_filter_witness :
    save_uploaded_file (some ⟨"malware.exe"⟩) "crew" "Jane_resume" "20240101_000000" = none ∧
    (save_uploaded_file (some ⟨"scan.PDF"⟩) "crew" "Jane_passport" "20240101_000000").isSome = true :=
  ⟨save_uploaded_file_extension_filter.2.1 "crew" "Jane_resume" "20240101_000000",
   save_uploaded_file_extension_filter.2.2 "crew" "Jane_passport" "20240101_000000"⟩

/-- C9: a login attempt with an existing username and a password failing the
hash check returns InvalidCredentials and leaves the session exactly as it
was; moreover the session can only come out authenticated when the stored
admin record passed the hash check. -/
theorem admin_login_wrong_password
    (admins : List Admin) (checkHash : String → String → Bool) (sess : Session)
    (u p : String) (a : Admin)
    (hu : pyStrip u ≠ "") (hp : p ≠ "")
    (hfind : admins.find? (fun x => x.username == pyStrip u) = some a)
    (hbad : checkHash a.password_hash p = false) :
    admin_login admins checkHash sess u p = (LoginOutcome.invalidCredentials, sess) ∧
    (∀ (admins' : List Admin) (checkHash' : String → String → Bool) (sess' : Session)
        (u' p' : String),
        sess'.admin_logged_in = false →
        (admin_login admins' checkHash' sess' u' p').2.admin_logged_in = true →
        ∃ a' : Admin, admins'.find? (fun x => x.username == pyStrip u') = some a' ∧
          checkHash' a'.password_hash p' = true) := by
  constructor
  · unfold admin_login
    rw [if_neg (by simp [hu, hp]), hfind]
    dsimp only
    rw [if_neg (by simp [hbad])]
  · intro admins' checkHash' sess' u' p' hnot hlog
    unfold admin_login at hlog
    by_cases hg : pyStrip u' = "" ∨ p' = ""
    · rw [if_pos hg] at hlog
      exact absurd hlog (by simp [hnot])
    · rw [if_neg hg] at hlog
      rcases hfind' : admins'.find? (fun x => x.username == pyStrip u') with _ | a'
      · rw [hfind'] at hlog
        dsimp only at hlog
        exact absurd hlog (by simp [hnot])
      · rw [hfind'] at hlog
        dsimp only at hlog
        by_cases hch : checkHash' a'.password_hash p' = true
        · exact ⟨a', hfind', hch⟩
        · rw [if_neg hch] at hlog
          exact absurd hlog (by simp [hnot])

theorem admin_login_wrong_password_witness :
    admin_login [sampleAdmin] sampleHash sampleSession "admin" "wrong" =
      (LoginOutcome.invalidCredentials, sampleSession) :=
  (admin_login_wrong_password [sampleAdmin] sampleHash sampleSession "admin" "wrong"
    sampleAdmin (by decide) (by decide) (by decide) (by decide)).1

theorem crewFrame_refl (c : CrewMember) : crewFrame c c := by
  unfold crewFrame
  exact ⟨rfl, rfl, rfl, rfl, rfl, rfl, rfl, rfl, rfl, rfl, rfl, rfl, rfl, rfl⟩

theorem staffFrame_refl (s : StaffMember) : staffFrame s s := by
  unfold staffFrame
  exact ⟨rfl, rfl, rfl, rfl, rfl, rfl, rfl, rfl, rfl, rfl, rfl, rfl⟩

theorem crewFrame_map (reg : List CrewMember) (i : Nat) (g : CrewMember → CrewMember)
    (hg : ∀ c, crewFrame c (g c)) :
    List.Forall₂ (fun c c' => crewFrame c c' ∧ (c.id ≠ i → c' = c)) reg
      (reg.map (fun r => if r.id == i then g r else r)) := by
  rw [List.forall₂_map_right_iff, List.forall₂_same]
  intro x _
  by_cases hid : (x.id == i) = true
  · refine ⟨by rw [if_pos hid]; exact hg x, ?_⟩
    intro hne
    exact absurd (by simpa using hid) hne
  · rw [if_neg hid]
    exact ⟨crewFrame_refl x, fun _ => rfl⟩

theorem staffFrame_map (reg : List StaffMember) (i : Nat) (g : StaffMember → StaffMember)
    (hg : ∀ s, staffFrame s (g s)) :
    List.Forall₂ (fun s s' => staffFrame s s' ∧ (s.id ≠ i → s' = s)) reg
      (reg.map (fun r => if r.id == i then g r else r)) := by
  rw [List.forall₂_map_right_iff, List.forall₂_same]
  intro x _
  by_cases hid : (x.id == i) = true
  · refine ⟨by rw [if_pos hid]; exact hg x, ?_⟩
    intro hne
    exact absurd (by simpa using hid) hne
  · rw [if_neg hid]
    exact ⟨staffFrame_refl x, fun _ => rfl⟩

/-- C10: each status-mutating handler (update_status, approve_crew,
reject_crew, approve_staff, reject_staff) touches at most the status and
updated_at fields of the addressed record; every other field of every record
is preserved, records whose id differs from the addressed one are unchanged,
and the table keeps its length and order. -/
theorem status_ops_frame :
    (∀ (reg : List CrewMember) (i now : Nat) (reg' : List CrewMember) (fc : FlashCat),
        update_status reg i now = some (reg', fc) →
        List.Forall₂ (fun c c' => crewFrame c c' ∧ (c.id ≠ i → c' = c)) reg reg') ∧
    (∀ (reg : List CrewMember) (i now : Nat) (reg' : List CrewMember) (fc : FlashCat),
        approve_crew reg i now = some (reg', fc) →
        List.Forall₂ (fun c c' => crewFrame c c' ∧ (c.id ≠ i → c' = c)) reg reg') ∧
    (∀ (reg : List CrewMember) (i now : Nat) (reg' : List CrewMember) (fc : FlashCat),
        reject_crew reg i now = some (reg', fc) →
        List.Forall₂ (fun c c' => crewFrame c c' ∧ (c.id ≠ i → c' = c)) reg reg') ∧
    (∀ (reg : List StaffMember) (i now : Nat) (reg' : List StaffMember) (fc : FlashCat),
        approve_staff reg i now = some (reg', fc) →
        List.Forall₂ (fun s s' => staffFrame s s' ∧ (s.id ≠ i → s' = s)) reg reg') ∧
    (∀ (reg : List StaffMember) (i now : Nat) (reg' : List StaffMember) (fc : FlashCat),
        reject_staff reg i now = some (reg', fc) →
        List.Forall₂ (fun s s' => staffFrame s s' ∧ (s.id ≠ i → s' = s)) reg reg') := by
  refine ⟨?_, ?_, ?_, ?_, ?_⟩
  · intro reg i now reg' fc h
    unfold update_status at h
    rcases hfind : reg.find? (fun c => c.id == i) with _ | c
    · rw [hfind] at h
      exact Option.noConfusion h
    · rw [hfind] at h
      dsimp only at h
      by_cases hlt : c.status < (status_stages.length : Int) - 1
      · rw [if_pos hlt] at h
        simp only [Option.some.injEq, Prod.mk.injEq] at h
        rw [← h.1]
        refine crewFrame_map reg i (fun r => advanceCrew r now) ?_
        intro x
        unfold advanceCrew
        dsimp only
        by_cases hx : x.status < (status_stages.length : Int) - 1
        · rw [if_pos hx]
          unfold crewFrame
          exact ⟨rfl, rfl, rfl, rfl, rfl, rfl, rfl, rfl, rfl, rfl, rfl, rfl, rfl, rfl⟩
        · rw [if_neg hx]
          exact crewFrame_refl x
      · rw [if_neg hlt] at h
        simp only [Option.some.injEq, Prod.mk.injEq] at h
        rw [← h.1, List.forall₂_same]
        intro x _
        exact ⟨crewFrame_refl x, fun _ => rfl⟩
  · intro reg i now reg' fc h
    unfold approve_crew at h
    rcases hfind : reg.find? (fun c => c.id == i) with _ | c
    · rw [hfind] at h
      exact Option.noConfusion h
    · rw [hfind] at h
      dsimp only at h
      simp only [Option.some.injEq, Prod.mk.injEq] at h
      rw [← h.1]
      refine crewFrame_map reg i _ ?_
      intro x
      unfold crewFrame
      exact ⟨rfl, rfl, rfl, rfl, rfl, rfl, rfl, rfl, rfl, rfl, rfl, rfl, rfl, rfl⟩
  · intro reg i now reg' fc h
    unfold reject_crew at h
    rcases hfind : reg.find? (fun c => c.id == i) with _ | c
    · rw [hfind] at h
      exact Option.noConfusion h
    · rw [hfind] at h
      dsimp only at h
      simp only [Option.some.injEq, Prod.mk.injEq] at h
      rw [← h.1]
      refine crewFrame_map reg i _ ?_
      intro x
      unfold crewFrame
      exact ⟨rfl, rfl, rfl, rfl, rfl, rfl, rfl, rfl, rfl, rfl, rfl, rfl, rfl, rfl⟩
  · intro reg i now reg' fc h
    unfold approve_staff at h
    rcases hfind : reg.find? (fun s => s.id == i) with _ | s
    · rw [hfind] at h
      exact Option.noConfusion h
    · rw [hfind] at h
      dsimp only at h
      simp only [Option.some.injEq, Prod.mk.injEq] at h
      rw [← h.1]
      refine staffFrame_map reg i _ ?_
      intro x
      unfold staffFrame
      exact ⟨rfl, rfl, rfl, rfl, rfl, rfl, rfl, rfl, rfl, rfl, rfl, rfl⟩
  · intro reg i now reg' fc h
    unfold reject_staff at h
    rcases hfind : reg.find? (fun s => s.id == i) with _ | s
    · rw [hfind] at h
      exact Option.noConfusion h
    · rw [hfind] at h
      dsimp only at h
      simp only [Option.some.injEq, Prod.mk.injEq] at h
      rw [← h.1]
      refine staffFrame_map reg i _ ?_
      intro x
      unfold staffFrame
      exact ⟨rfl, rfl, rfl, rfl, rfl, rfl, rfl, rfl, rfl, rfl, rfl, rfl⟩

theorem status_ops_frame_witness :
    List.Forall₂ (fun c c' => crewFrame c c' ∧ (c.id ≠ 1 → c' = c))
      [sampleCrew, sampleRejected]
      [{ sampleCrew with status := 1, updated_at := 5 }, sampleRejected] ∧
    List.Forall₂ (fun c c' => crewFrame c c' ∧ (c.id ≠ 1 → c' = c))
      [sampleCrew] [{ sampleCrew with status := 3, updated_at := 5 }] ∧
    List.Forall₂ (fun c c' => crewFrame c c' ∧ (c.id ≠ 1 → c' = c))
      [sampleCrew] [{ sampleCrew with status := -1, updated_at := 5 }] ∧
    List.Forall₂ (fun s s' => staffFrame s s' ∧ (s.id ≠ 1 → s' = s))
      [sampleStaff] [{ sampleStaff with status := 3, updated_at := 5 }] ∧
    List.Forall₂ (fun s s' => staffFrame s s' ∧ (s.id ≠ 1 → s' = s))
      [sampleStaff] [{ sampleStaff with status := -1, updated_at := 5 }] :=
  ⟨status_ops_frame.1 [sampleCrew, sampleRejected] 1 5
      [{ sampleCrew with status := 1, updated_at := 5 }, sampleRejected]
      FlashCat.success (by decide),
   status_ops_frame.2.1 [sampleCrew] 1 5
      [{ sampleCrew with status := 3, updated_at := 5 }] FlashCat.success (by decide),
   status_ops_frame.2.2.1 [sampleCrew] 1 5
      [{ sampleCrew with status := -1, updated_at := 5 }] FlashCat.warning (by decide),
   status_ops_frame.2.2.2.1 [sampleStaff] 1 5
      [{ sampleStaff with status := 3, updated_at := 5 }] FlashCat.success (by decide),
   status_ops_frame.2.2.2.2 [sampleStaff] 1 5
      [{ sampleStaff with status := -1, updated_at := 5 }] FlashCat.warning (by decide)⟩

theorem pyUpper_ne_empty {s : String} (h : s ≠ "") : pyUpper s ≠ "" := by
  intro hc
  apply h
  apply String.ext
  have hdata : s.data.map Char.toUpper = [] := congrArg String.data hc
  simpa using hdata

theorem register_created_inv
    (reg : List CrewMember) (form : RegisterForm) (files : RegisterFiles)
    (timestamp : String) (now newId : Nat) (c : CrewMember) (reg' : List CrewMember)
    (h : register reg form files timestamp now newId = (RegisterOutcome.created c, reg')) :
    pyStrip form.passport ≠ "" ∧
    reg.find? (fun x => x.passport == pyUpper (pyStrip form.passport)) = none ∧
    c.passport = pyUpper (pyStrip form.passport) ∧ c.status = 0 ∧
    reg' = reg ++ [c] := by
  unfold register at h
  by_cases hg : pyStrip form.name = "" ∨ pyStrip form.rank = "" ∨ pyStrip form.passport = ""
  · rw [if_pos hg] at h
    exact absurd h (by simp)
  · rw [if_neg hg] at h
    push_neg at hg
    rcases hfind : reg.find? (fun x => x.passport == pyUpper (pyStrip form.passport)) with _ | y
    · rw [hfind] at h
      dsimp only at h
      split at h
      · simp only [Prod.mk.injEq, RegisterOutcome.created.injEq] at h
        refine ⟨hg.2.2, hfind, ?_, ?_, ?_⟩
        · rw [← h.1]
        · rw [← h.1]
        · rw [← h.2, ← h.1]
      · exact absurd h (by simp)
    · rw [hfind] at h
      dsimp only at h
      exact absurd h (by simp)

/-- C1: with pairwise-distinct stored passports, a registration whose
required fields are present and whose upper-cased stripped passport is
already stored fails with duplicateKey and persists nothing, whatever the
case of the input; and a successful registration keeps the stored passports
pairwise distinct. -/
theorem register_unique_passport
    (reg : List CrewMember) (form : RegisterForm) (files : RegisterFiles)
    (timestamp : String) (now newId : Nat)
    (hinv : reg.Pairwise (fun a b => a.passport ≠ b.passport)) :
    ((pyStrip form.name ≠ "" ∧ pyStrip form.rank ≠ "" ∧ pyStrip form.passport ≠ "" ∧
        ∃ x ∈ reg, x.passport = pyUpper (pyStrip form.passport)) →
      register reg form files timestamp now newId = (RegisterOutcome.duplicateKey, reg)) ∧
    (∀ (c : CrewMember) (reg' : List CrewMember),
        register reg form files timestamp now newId = (RegisterOutcome.created c, reg') →
        reg'.Pairwise (fun a b => a.passport ≠ b.passport)) := by
  constructor
  · rintro ⟨hn, hr, hp, x, hx, hxp⟩
    unfold register
    rw [if_neg (by push_neg; exact ⟨hn, hr, hp⟩)]
    have hsome : (reg.find? (fun c => c.passport == pyUpper (pyStrip form.passport))).isSome :=
      List.find?_isSome.mpr ⟨x, hx, by rw [hxp]; exact beq_self_eq_true _⟩
    obtain ⟨y, hy⟩ := Option.isSome_iff_exists.mp hsome
    rw [hy]
  · intro c reg' h
    obtain ⟨hp, hfind, hcp, hst, hreg'⟩ :=
      register_created_inv reg form files timestamp now newId c reg' h
    rw [hreg', List.pairwise_append]
    refine ⟨hinv, List.pairwise_singleton _ _, ?_⟩
    intro a ha b hb
    simp only [List.mem_singleton] at hb
    subst hb
    rw [hcp]
    have hne := List.find?_eq_none.mp hfind a ha
    simpa using hne

theorem register_unique_passport_witness :
    register [sampleCrew] { sampleForm with passport := " aB123 " } sampleNoFiles "t" 0 2 =
      (RegisterOutcome.duplicateKey, [sampleCrew]) :=
  (register_unique_passport [sampleCrew] { sampleForm with passport := " aB123 " }
      sampleNoFiles "t" 0 2 (by decide)).1
    ⟨by decide, by decide, by decide, sampleCrew, by decide, by decide⟩

/-- C8: a successful registration stores the upper-cased stripped passport
with status 0 and appends the record to the table, and the track handler
strips and upper-cases its input before the lookup, so the new record is
found under any case variant of the registered passport. -/
theorem register_track_roundtrip
    (reg : List CrewMember) (form : RegisterForm) (files : RegisterFiles)
    (timestamp : String) (now newId : Nat) (c : CrewMember) (reg' : List CrewMember)
    (h : register reg form files timestamp now newId = (RegisterOutcome.created c, reg')) :
    c.passport = pyUpper (pyStrip form.passport) ∧ c.status = 0 ∧
    reg' = reg ++ [c] ∧
    ∀ q : String, pyUpper (pyStrip q) = pyUpper (pyStrip form.passport) →
      track reg' q = some c := by
  obtain ⟨hp, hfind, hcp, hst, hreg'⟩ :=
    register_created_inv reg form files timestamp now newId c reg' h
  refine ⟨hcp, hst, hreg', ?_⟩
  intro q hq
  simp only [track]
  rw [hq, if_neg (pyUpper_ne_empty hp), hreg', List.find?_append, hfind,
    Option.none_or, List.find?_singleton, if_pos (by simp [hcp])]

theorem register_track_roundtrip_witness :
    track [sampleCrew] " Ab123" = some sampleCrew :=
  (register_track_roundtrip [] sampleForm sampleNoFiles "t" 0 1 sampleCrew [sampleCrew]
      (by decide)).2.2.2 " Ab123" (by decide)

end Maricheck
